/-
Verification of the sPyNNaker connector / routing-key subsystem.

This file shallowly embeds the relevant Python sources:
  * spynnaker/pyNN/models/neural_projections/connectors/fixed_number_post_connector.py
  * spynnaker/pyNN/models/neural_projections/connectors/convolution_connector.py
  * spynnaker/pyNN/external_devices_models/spif_retina_device.py

Machine integers are modelled as Nat/Int (Python ints are unbounded; numpy
uint16/uint32 wrapping is made explicit with % 2^16 / % 2^32 where the code
relies on it).  Raising an exception is modelled as `Except.error`.
-/
import Mathlib

namespace SpyNNaker

/-! ## Model of `SynapseInformation`

Only the fields the connectors read: the two population sizes and whether
the pre- and post-population are the same object (`pre_population is
post_population` in Python). -/

structure SynapseInformation where
  n_pre_neurons : Nat
  n_post_neurons : Nat
  /-- Models the Python identity test `pre_population is post_population`. -/
  pre_is_post : Bool
deriving Repr, DecidableEq

/-! ## Model of `FixedNumberPostConnector`

State of one connector object: the configuration given to `__init__` plus the
mutable cache fields `__post_neurons` / `__post_neurons_set`.  The cache list
elements are `Option (List Nat)` because the Python code tests list entries
with `is None`; `__init__` fills the list with (non-None) empty arrays, here
`some []`. -/

structure FixedNumberPostConnector where
  n_post : Nat
  allow_self_connections : Bool
  with_replacement : Bool
  post_neurons : List (Option (List Nat))
  post_neurons_set : Bool

/-- The connector as built by `__init__(n, allow_self_connections,
with_replacement, ...)`: the cache starts out as the empty list with the
`set` flag false. -/
def FixedNumberPostConnector.make (n : Nat) (allow_self with_repl : Bool) :
    FixedNumberPostConnector :=
  { n_post := n
    allow_self_connections := allow_self
    with_replacement := with_repl
    post_neurons := []
    post_neurons_set := false }

/-- The random generator interface used by `__build_post_neurons`:
`rng.choice(sequence, n, with_replacement)` (first form) and
`rng.choice(int, n, with_replacement)` (second form).  The results are left
abstract; the enclosing theorems quantify over them. -/
structure Rng where
  choiceList : List Nat → Nat → Bool → List Nat
  choiceN : Nat → Nat → Bool → List Nat

/-- `FixedNumberPostConnector.__build_post_neurons`.  Translated line by line:
the accumulator starts as `[numpy.empty([0])] * n_pre_neurons` (a list of
non-None empty arrays), and the body of the per-pre-neuron loop runs only
under the guard `if post_neurons[m] is None`. -/
def buildPostNeurons (rng : Rng) (c : FixedNumberPostConnector)
    (synapse_info : SynapseInformation) : List (Option (List Nat)) :=
  let init : List (Option (List Nat)) :=
    List.replicate synapse_info.n_pre_neurons (some [])
  (List.range synapse_info.n_pre_neurons).foldl
    (fun post_neurons m =>
      if (post_neurons.getD m none).isNone then
        if synapse_info.pre_is_post && !c.allow_self_connections then
          -- a list of all post indices without the pre neuron itself
          let no_self_post_neurons :=
            List.range m ++
              List.range' (m + 1) (synapse_info.n_post_neurons - (m + 1))
          post_neurons.set m
            (some (rng.choiceList no_self_post_neurons c.n_post
              c.with_replacement))
        else
          post_neurons.set m
            (some (rng.choiceN synapse_info.n_post_neurons c.n_post
              c.with_replacement))
      else post_neurons)
    init

/-- `FixedNumberPostConnector._get_post_neurons`: returns the cached list,
building (and caching) it on the first call.  The verbose CSV dump is pure
I/O and is not modelled.  Returns the list together with the updated
connector state. -/
def getPostNeurons (rng : Rng) (c : FixedNumberPostConnector)
    (synapse_info : SynapseInformation) :
    List (Option (List Nat)) × FixedNumberPostConnector :=
  if c.post_neurons_set then (c.post_neurons, c)
  else
    let pns := buildPostNeurons rng c synapse_info
    (pns, { c with post_neurons := pns, post_neurons_set := true })

/-- `FixedNumberPostConnector._post_neurons_in_slice`: the cached selection of
pre-neuron `n`, restricted to `lo_atom <= index <= hi_atom`. -/
def postNeuronsInSlice (rng : Rng) (c : FixedNumberPostConnector)
    (synapse_info : SynapseInformation) (lo_atom hi_atom n : Nat) :
    List Nat × FixedNumberPostConnector :=
  let (post_neurons, c') := getPostNeurons rng c synapse_info
  let this_array := (post_neurons.getD n none).getD []
  (this_array.filter (fun p => decide (lo_atom ≤ p) && decide (p ≤ hi_atom)),
    c')

/-- `FixedNumberPostConnector._n_post_neurons_in_slice`: the count version
(`numpy.count_nonzero` of the same predicate). -/
def nPostNeuronsInSlice (rng : Rng) (c : FixedNumberPostConnector)
    (synapse_info : SynapseInformation) (lo_atom hi_atom n : Nat) :
    Nat × FixedNumberPostConnector :=
  let (post_neurons, c') := getPostNeurons rng c synapse_info
  let this_array := (post_neurons.getD n none).getD []
  (this_array.countP
    (fun p => decide (lo_atom ≤ p) && decide (p ≤ hi_atom)), c')

/-- The `allow_self_connections` property setter. -/
def setAllowSelfConnections (c : FixedNumberPostConnector) (b : Bool) :
    FixedNumberPostConnector :=
  { c with allow_self_connections := b }

/-- `FixedNumberPostConnector.set_projection_information`: the two
`SpynnakerException` guards.  The super call stores projection data on the
base class and touches none of this connector's fields. -/
def setProjectionInformation (c : FixedNumberPostConnector)
    (synapse_info : SynapseInformation) : Except String Unit :=
  if !c.with_replacement && decide (c.n_post > synapse_info.n_post_neurons)
  then
    Except.error
      "FixedNumberPostConnector will not work when with_replacement=False and n > n_post_neurons"
  else if !c.with_replacement && !c.allow_self_connections &&
      decide (c.n_post = synapse_info.n_post_neurons) &&
      synapse_info.pre_is_post then
    Except.error
      "FixedNumberPostConnector will not work when with_replacement=False, allow_self_connections=False and n = n_post_neurons"
  else Except.ok ()

/-- The raising condition asserted by the C3 claim, written from the claim's
words: raise when `n` exceeds the number of post-neurons, and additionally,
with self-connections disallowed on a self-projection, when `n` equals the
full eligible pool of `population - 1` post-neurons. -/
def c3ClaimRaises (c : FixedNumberPostConnector)
    (synapse_info : SynapseInformation) : Bool :=
  (!c.with_replacement && decide (c.n_post > synapse_info.n_post_neurons)) ||
    (!c.with_replacement && !c.allow_self_connections &&
      synapse_info.pre_is_post &&
      decide (c.n_post = synapse_info.n_post_neurons - 1))

/-! ## Model of `ConvolutionConnector`

Kernel weights are numpy float64; they are modelled as exact rationals (the
operations the claims touch - comparisons, max, scaling, the shape
bookkeeping - are exact).  2D numpy integer arrays such as strides and
padding become pairs of integers; `//` on numpy integers is floor division,
`Int.fdiv` here. -/

/-- Constants from `spinn_front_end_common.utilities.constants`. -/
def BYTES_PER_SHORT : Nat := 2

def BYTES_PER_WORD : Nat := 4

/-- `CONNECTOR_CONFIG_SIZE = (10 * BYTES_PER_SHORT) + (4 * BYTES_PER_WORD)`. -/
def CONNECTOR_CONFIG_SIZE : Nat :=
  10 * BYTES_PER_SHORT + 4 * BYTES_PER_WORD

structure ConvolutionConnector where
  /-- `__kernel_weights`: a rectangular 2D array, row-major list of rows. -/
  kernel_weights : List (List ℚ)
  /-- `__strides` (row, column). -/
  strides : Int × Int
  /-- `__padding_shape` (row, column). -/
  padding_shape : Int × Int
  pool_shape : Option (Int × Int)
  pool_stride : Option (Int × Int)
  positive_receptor_type : String
  negative_receptor_type : String
  filter_edges : Bool

/-- The tail of `ConvolutionConnector.__init__` after the kernel / padding /
shape arguments are decoded: default strides of (1, 1) are supplied by the
caller here; `pool_stride` defaults to `pool_shape`; kernel weights are
pre-divided by the pooling area when pooling is present. -/
def ConvolutionConnector.make (kernel_weights : List (List ℚ))
    (strides padding : Int × Int) (pool_shape pool_stride : Option (Int × Int))
    (pos neg : String) (filter_edges : Bool) : ConvolutionConnector :=
  let pstride := match pool_stride with
    | none => pool_shape
    | some p => some p
  let kw := match pool_shape with
    | some ps => kernel_weights.map (fun row =>
        row.map (fun w => w / ((ps.1 * ps.2 : Int) : ℚ)))
    | none => kernel_weights
  { kernel_weights := kw
    strides := strides
    padding_shape := padding
    pool_shape := pool_shape
    pool_stride := pstride
    positive_receptor_type := pos
    negative_receptor_type := neg
    filter_edges := filter_edges }

/-- `self.__kernel_weights.shape`: (number of rows, number of columns). -/
def ConvolutionConnector.kernelShape (c : ConvolutionConnector) : Nat × Nat :=
  (c.kernel_weights.length, (c.kernel_weights.headD []).length)

/-- `ConvolutionConnector.get_post_shape`.  `__init__` guarantees that
`pool_stride` is set whenever `pool_shape` is, so the `getD` default is never
reached on connectors built by `make`. -/
def ConvolutionConnector.getPostShape (c : ConvolutionConnector)
    (shape : Int × Int) : Int × Int :=
  let ps := c.pool_stride.getD (1, 1)
  let sh : Int × Int :=
    if c.pool_shape.isSome then (shape.1.fdiv ps.1, shape.2.fdiv ps.2)
    else shape
  let k := c.kernelShape
  let post : Int × Int :=
    (sh.1 - ((k.1 : Int) - 1) + 2 * c.padding_shape.1,
      sh.2 - ((k.2 : Int) - 1) + 2 * c.padding_shape.2)
  (max 1 (post.1.fdiv c.strides.1), max 1 (post.2.fdiv c.strides.2))

/-- The post-shape formula as the C2 claim states it:
`clamp(floor((pre_shape - (kernel_shape-1) + 2*padding) / stride), min=1)`
in each dimension, after integer-dividing `pre_shape` by the pool stride
when pooling is configured. -/
def c2ClaimPostShape (c : ConvolutionConnector) (shape : Int × Int) :
    Int × Int :=
  let pre : Int × Int :=
    if c.pool_shape.isSome then
      (shape.1.fdiv (c.pool_stride.getD (1, 1)).1,
        shape.2.fdiv (c.pool_stride.getD (1, 1)).2)
    else shape
  let k := c.kernelShape
  (max 1 ((pre.1 - ((k.1 : Int) - 1) + 2 * c.padding_shape.1).fdiv
      c.strides.1),
    max 1 ((pre.2 - ((k.2 : Int) - 1) + 2 * c.padding_shape.2).fdiv
      c.strides.2))

/-- A population vertex as the convolution connector sees it: its shape and
its `get_synapse_id_by_target` lookup. -/
structure PopulationVertex where
  atoms_shape : List Int
  synapse_id_by_target : String → Option Nat

/-- `ConvolutionConnector.validate_connection`: the four configuration
checks, in source order.  The connector itself is not written to. -/
def ConvolutionConnector.validateConnection (c : ConvolutionConnector)
    (pre post : PopulationVertex) : Except String Unit :=
  if pre.atoms_shape.length ≠ 2 ∨ post.atoms_shape.length ≠ 2 then
    Except.error
      "The ConvolutionConnector only works where the Populations of a Projection are both 2D."
  else if (post.atoms_shape.getD 0 0, post.atoms_shape.getD 1 0) ≠
      c.getPostShape (pre.atoms_shape.getD 0 0, pre.atoms_shape.getD 1 0) then
    Except.error
      "the post-population must have a shape matching the connector"
  else if (post.synapse_id_by_target c.positive_receptor_type).isNone then
    Except.error
      "The post population has no synaptic receptor of the positive type"
  else if (post.synapse_id_by_target c.negative_receptor_type).isNone then
    Except.error
      "The post population has no synaptic receptor of the negative type"
  else Except.ok ()

/-- `numpy.amax` over the (flattened, nonempty) kernel. -/
def amax (l : List ℚ) : ℚ :=
  match l with
  | [] => 0
  | x :: xs => xs.foldl max x

/-- `ConvolutionConnector.get_weight_maximum`:
`numpy.amax(self.__kernel_weights)`. -/
def ConvolutionConnector.getWeightMaximum (c : ConvolutionConnector) : ℚ :=
  amax c.kernel_weights.flatten

/-- What the C8 claim asserts `get_weight_maximum` returns: the maximum
absolute value over all kernel weights. -/
def c8ClaimMaxAbsWeight (c : ConvolutionConnector) : ℚ :=
  amax (c.kernel_weights.flatten.map (fun w => |w|))

/-- `kernel_n_weights`: `self.__kernel_weights.size`. -/
def ConvolutionConnector.kernelNWeights (c : ConvolutionConnector) : Nat :=
  c.kernel_weights.flatten.length

/-- `kernel_n_bytes`: `n_weights * BYTES_PER_SHORT`. -/
def ConvolutionConnector.kernelNBytes (c : ConvolutionConnector) : Nat :=
  c.kernelNWeights * BYTES_PER_SHORT

/-- `parameters_n_bytes`: `CONNECTOR_CONFIG_SIZE`. -/
def ConvolutionConnector.parametersNBytes (_ : ConvolutionConnector) : Nat :=
  CONNECTOR_CONFIG_SIZE

/-- numpy's `uint16-array.view("uint32")`: consecutive 16-bit words are
paired into one 32-bit word, the later element in the high half
(little-endian). -/
def viewU16AsU32 : List Nat → List Nat
  | a :: b :: rest => (a % 65536 + (b % 65536) * 65536) :: viewU16AsU32 rest
  | _ => []

/-- A numpy int value cast to uint16 (wrap mod 2^16). -/
def toU16 (x : Int) : Nat := (x % 65536).toNat

/-- `ConvolutionConnector.get_local_only_data`.  `div_const` stands for
`get_div_const` from `local_only_2d_common` (only its 32-bit-word result
matters here); `pos_synapse_type` / `neg_synapse_type` are the (present)
receptor ids looked up on the post vertex. -/
def ConvolutionConnector.getLocalOnlyData (c : ConvolutionConnector)
    (div_const : Int → Nat) (pos_synapse_type neg_synapse_type : Nat)
    (delay_stage local_delay weight_index : Nat) : List Nat :=
  let kernel_shape := c.kernelShape
  let ps : Int × Int := match c.pool_stride with
    | some p => p
    | none => (1, 1)
  let short_values : List Nat := [
    kernel_shape.2 % 65536, kernel_shape.1 % 65536,
    toU16 c.padding_shape.2, toU16 c.padding_shape.1,
    pos_synapse_type % 65536, neg_synapse_type % 65536,
    delay_stage % 65536, local_delay % 65536,
    weight_index % 65536, 0]
  let long_values : List Nat := [
    div_const c.strides.2 % 4294967296, div_const c.strides.1 % 4294967296,
    div_const ps.2 % 4294967296, div_const ps.1 % 4294967296]
  viewU16AsU32 short_values ++ long_values

/-- Cast of a (rounded) value to numpy int16: wrap into [-2^15, 2^15). -/
def toI16 (z : Int) : Int := (z + 32768) % 65536 - 32768

/-- `ConvolutionConnector.get_encoded_kernel_weights`: flatten, scale the
negative weights by the negative receptor's weight scale and the positive
ones by the positive receptor's, round, cast to int16.  (numpy rounds ties
to even; `round` here rounds ties up, which no stated claim depends on.) -/
def ConvolutionConnector.getEncodedKernelWeights (c : ConvolutionConnector)
    (weight_scale_pos weight_scale_neg : ℚ) : List Int :=
  c.kernel_weights.flatten.map (fun w =>
    toI16 (round (if w < 0 then w * weight_scale_neg
      else if w > 0 then w * weight_scale_pos else w)))

/-- A 2D slice of a grid population: the per-dimension Python `slice(start,
stop)` ranges returned by `vertex_slice.get_slice(0)` / `get_slice(1)`. -/
structure GridSlice where
  x_start : Int
  x_stop : Int
  y_start : Int
  y_stop : Int
deriving Repr, DecidableEq

/-- `ConvolutionConnector.__pre_as_post` on one (x, y) coordinate pair:
floor-divide by the pool stride when present, subtract the kernel centre,
add the padding, floor-divide by the strides. -/
def ConvolutionConnector.preAsPost (c : ConvolutionConnector)
    (coords : Int × Int) : Int × Int :=
  let p : Int × Int := match c.pool_stride with
    | some ps => (coords.1.fdiv ps.1, coords.2.fdiv ps.2)
    | none => coords
  let k := c.kernelShape
  let q : Int × Int :=
    (p.1 - (k.1 / 2 : Nat) + c.padding_shape.1,
      p.2 - (k.2 / 2 : Nat) + c.padding_shape.2)
  (q.1.fdiv c.strides.1, q.2.fdiv c.strides.2)

/-- The per-pre-vertex test inside `get_connected_vertices`: the pre range
corners mapped by `__pre_as_post` against the post slice widened by
`kernel_shape // 2` in each dimension. -/
def ConvolutionConnector.preInRange (c : ConvolutionConnector)
    (pre post : GridSlice) : Bool :=
  let pap_start := c.preAsPost (pre.x_start, pre.y_start)
  let pap_stop := c.preAsPost (pre.x_stop - 1, pre.y_stop - 1)
  let hlf_k_w : Int := (c.kernelShape.1 / 2 : Nat)
  let hlf_k_h : Int := (c.kernelShape.2 / 2 : Nat)
  let min_x := post.x_start - hlf_k_w
  let max_x := post.x_stop + hlf_k_w - 1
  let min_y := post.y_start - hlf_k_h
  let max_y := post.y_stop + hlf_k_h - 1
  let start_in_range :=
    !(decide (pap_start.1 > max_x) || decide (pap_start.2 > max_y))
  let end_in_range :=
    !(decide (pap_stop.1 < min_x) || decide (pap_stop.2 < min_y))
  start_in_range && end_in_range

/-- `ConvolutionConnector.get_connected_vertices`, restricted to one post
machine vertex: the list of retained pre machine vertices.  Without edge
filtering the base-class behaviour keeps every pre vertex. -/
def ConvolutionConnector.connectedPreVertices (c : ConvolutionConnector)
    (pre_slices : List GridSlice) (post : GridSlice) : List GridSlice :=
  if c.filter_edges then
    pre_slices.filter (fun pre => c.preInRange pre post)
  else pre_slices

/-! ## Model of `SourceOrder` (spif_retina_device.py)

Each variant carries three shift functions of the x/y bit widths; the three
mask accessors build the field masks from the same shifts. -/

inductive SourceOrder
  | PXY | XPY | XYP | PYX | YPX | YXP
deriving Repr, DecidableEq

/-- `PSHIFT(x_bits, y_bits)` per variant. -/
def SourceOrder.pShift : SourceOrder → Nat → Nat → Nat
  | .PXY, xb, yb => xb + yb
  | .XPY, _, yb => yb
  | .XYP, _, _ => 0
  | .PYX, xb, yb => xb + yb
  | .YPX, xb, _ => xb
  | .YXP, _, _ => 0

/-- `XSHIFT(y_bits)` per variant. -/
def SourceOrder.xShift : SourceOrder → Nat → Nat
  | .PXY, yb => yb
  | .XPY, yb => yb + 1
  | .XYP, yb => yb + 1
  | .PYX, _ => 0
  | .YPX, _ => 0
  | .YXP, _ => 1

/-- `YSHIFT(x_bits)` per variant. -/
def SourceOrder.yShift : SourceOrder → Nat → Nat
  | .PXY, _ => 0
  | .XPY, _ => 0
  | .XYP, _ => 1
  | .PYX, xb => xb
  | .YPX, xb => xb + 1
  | .YXP, xb => xb + 1

/-- `SourceOrder.p_mask`: `1 << p_shift`. -/
def SourceOrder.pMask (so : SourceOrder) (x_bits y_bits : Nat) : Nat :=
  1 <<< so.pShift x_bits y_bits

/-- `SourceOrder.x_mask`: `((1 << x_bits) - 1) << x_shift`. -/
def SourceOrder.xMask (so : SourceOrder) (x_bits y_bits : Nat) : Nat :=
  ((1 <<< x_bits) - 1) <<< so.xShift y_bits

/-- `SourceOrder.y_mask`: `((1 << y_bits) - 1) << y_shift`. -/
def SourceOrder.yMask (so : SourceOrder) (x_bits y_bits : Nat) : Nat :=
  ((1 <<< y_bits) - 1) <<< so.yShift x_bits

/-- The key built from a pixel event, as the C4 claim words it: OR of the
three fields placed at the variant's shifts. -/
def SourceOrder.encode (so : SourceOrder) (x_bits y_bits x y p : Nat) : Nat :=
  (p <<< so.pShift x_bits y_bits) ||| (x <<< so.xShift y_bits) |||
    (y <<< so.yShift x_bits)

/-- Decoding a key with the same shifts and the `p_mask`/`x_mask`/`y_mask`
fields: `(x, y, polarity)`. -/
def SourceOrder.decode (so : SourceOrder) (x_bits y_bits key : Nat) :
    Nat × Nat × Nat :=
  ((key &&& so.xMask x_bits y_bits) >>> so.xShift y_bits,
    (key &&& so.yMask x_bits y_bits) >>> so.yShift x_bits,
    (key &&& so.pMask x_bits y_bits) >>> so.pShift x_bits y_bits)

/-! ## Model of `SPIFRetinaDevice` -/

/-- Helper for `log2floor`: structural recursion on a fuel argument. -/
def log2floorAux : Nat → Nat → Nat
  | 0, _ => 0
  | fuel + 1, n => if n ≥ 2 then log2floorAux fuel (n / 2) + 1 else 0

/-- Floor of the base-2 logarithm (`int(math.log2(v))` for exact inputs). -/
def log2floor (n : Nat) : Nat := log2floorAux n n

/-- `SPIFRetinaDevice.__is_power_of_2`: `2 ** int(math.log2(v)) == v`
(`math.log2(0)` raises in Python; zero is modelled as not a power of 2). -/
def isPowerOf2 (v : Nat) : Bool :=
  decide (v ≠ 0) && decide (2 ^ log2floor v = v)

/-- Modelled from the spec: `get_n_bits` lives in
`spynnaker.pyNN.utilities.utility_calls`, outside the given sources.  Per
the spec's routing-key section, remaining key bits are apportioned by the
bit-widths of the addressed dimensions: the width of a field holding one of
`n` values is the least number of bits that can distinguish them
(`ceil(log2 n)`), with 0 values needing 0 bits and 1 value still occupying
1 bit. -/
def get_n_bits (n : Nat) : Nat :=
  if n = 0 then 0
  else if n = 1 then 1
  else (((List.range (n + 1)).find? (fun k => decide (n ≤ 2 ^ k))).getD n)

/-- `SPIFRetinaDevice.Y_MASK`. -/
def Y_MASK : Nat := 1

/-- `SPIFRetinaDevice.X_MASK`. -/
def X_MASK : Nat := 3

/-- `SPIFRetinaDevice.X_PER_ROW`. -/
def X_PER_ROW : Nat := 4

/-- `SPIFRetinaDevice.N_POLARITY_BITS`. -/
def N_POLARITY_BITS : Nat := 1

/-- `pacman.utilities.constants.BITS_IN_KEY`. -/
def BITS_IN_KEY : Nat := 32

/-- The constructor arguments of `SPIFRetinaDevice` that feed the routing
key and mask computation. -/
structure SPIFRetinaDevice where
  base_key : Nat
  width : Nat
  height : Nat
  sub_width : Nat
  sub_height : Nat
deriving Repr, DecidableEq

namespace SPIFRetinaDevice

/-- The configuration checks at the top of `__init__`; construction
succeeds exactly when this is true. -/
def constructionOK (s : SPIFRetinaDevice) : Bool :=
  !(decide (s.sub_width < X_MASK) || decide (s.sub_height < Y_MASK)) &&
    isPowerOf2 s.sub_width && isPowerOf2 s.sub_height

def x_bits (s : SPIFRetinaDevice) : Nat := get_n_bits s.width

def y_bits (s : SPIFRetinaDevice) : Nat := get_n_bits s.height

/-- `int(math.ceil(width / sub_width))`. -/
def n_squares_per_row (s : SPIFRetinaDevice) : Nat :=
  (s.width + s.sub_width - 1) / s.sub_width

/-- `int(math.ceil(height / sub_height))`. -/
def n_squares_per_col (s : SPIFRetinaDevice) : Nat :=
  (s.height + s.sub_height - 1) / s.sub_height

def sub_x_bits (s : SPIFRetinaDevice) : Nat := get_n_bits s.n_squares_per_row

def sub_y_bits (s : SPIFRetinaDevice) : Nat := get_n_bits s.n_squares_per_col

def sub_x_mask (s : SPIFRetinaDevice) : Nat := (1 <<< s.sub_x_bits) - 1

def sub_y_mask (s : SPIFRetinaDevice) : Nat := (1 <<< s.sub_y_bits) - 1

def key_shift (s : SPIFRetinaDevice) : Nat :=
  s.y_bits + s.x_bits + N_POLARITY_BITS

/-- `BITS_IN_KEY - key_shift` (truncated Nat subtraction; in Python a
retina too large for the key space makes `1 << n_key_bits` raise). -/
def n_key_bits (s : SPIFRetinaDevice) : Nat := BITS_IN_KEY - s.key_shift

def key_mask (s : SPIFRetinaDevice) : Nat := (1 <<< s.n_key_bits) - 1

def fpga_y_shift (s : SPIFRetinaDevice) : Nat := s.x_bits

def x_index_shift (s : SPIFRetinaDevice) : Nat := s.x_bits - s.sub_x_bits

def y_index_shift (s : SPIFRetinaDevice) : Nat :=
  s.x_bits + (s.y_bits - s.sub_y_bits)

/-- `self.__fpga_mask`, built with `+` exactly as in the source. -/
def fpga_mask (s : SPIFRetinaDevice) : Nat :=
  (s.key_mask <<< s.key_shift) +
    (s.sub_y_mask <<< s.y_index_shift) +
    (Y_MASK <<< s.fpga_y_shift) +
    (s.sub_x_mask <<< s.x_index_shift) +
    X_MASK

/-- `self.__key_bits = base_key << key_shift`. -/
def key_bits (s : SPIFRetinaDevice) : Nat := s.base_key <<< s.key_shift

/-- `SPIFRetinaDevice.__sub_square_bits`: FPGA x/y from an (odd) incoming
FPGA link id. -/
def subSquareBits (fpga_link_id : Nat) : Nat × Nat :=
  let fpga_index := (fpga_link_id - 1) / 2
  (fpga_index % X_PER_ROW, fpga_index / X_PER_ROW)

/-- `SPIFRetinaDevice.__sub_square`: sub-square x/y indices from the linear
machine-vertex index. -/
def subSquare (s : SPIFRetinaDevice) (index : Nat) : Nat × Nat :=
  (index % s.n_squares_per_row, index / s.n_squares_per_row)

/-- The key built by `get_outgoing_partition_constraints` for the machine
vertex with the given FPGA link and index (composed with `+` as in the
source). -/
def outgoingKey (s : SPIFRetinaDevice) (fpga_link_id index : Nat) : Nat :=
  let fpga := subSquareBits fpga_link_id
  let sq := s.subSquare index
  s.key_bits +
    (sq.2 <<< s.y_index_shift) +
    (fpga.2 <<< s.fpga_y_shift) +
    (sq.1 <<< s.x_index_shift) +
    fpga.1

end SPIFRetinaDevice

/-! ## Helper lemmas -/

/-- A fold whose step function fixes the accumulator on every list element
leaves the accumulator unchanged. -/
theorem foldl_fixed {α β : Type _} (f : α → β → α) (c : α) (l : List β)
    (h : ∀ x ∈ l, f c x = c) : l.foldl f c = c := by
  induction l with
  | nil => rfl
  | cons a t ih =>
    rw [List.foldl_cons, h a (List.mem_cons_self a t)]
    exact ih (fun x hx => h x (List.mem_cons_of_mem a hx))

/-- The seed of a `foldl max` is bounded by the result. -/
theorem le_foldl_max (x : ℚ) (xs : List ℚ) : x ≤ xs.foldl max x := by
  induction xs generalizing x with
  | nil => exact le_refl x
  | cons b t ih => exact le_trans (le_max_left x b) (ih (max x b))

/-- Every list element is bounded by `foldl max`. -/
theorem mem_le_foldl_max {w : ℚ} {xs : List ℚ} (x : ℚ) (h : w ∈ xs) :
    w ≤ xs.foldl max x := by
  induction xs generalizing x with
  | nil => exact absurd h (List.not_mem_nil w)
  | cons b t ih =>
    rcases List.mem_cons.1 h with rfl | h2
    · exact le_trans (le_max_right x w) (le_foldl_max _ _)
    · exact ih _ h2

/-- `foldl max` returns either its seed or a list element. -/
theorem foldl_max_mem (xs : List ℚ) (x : ℚ) :
    xs.foldl max x = x ∨ xs.foldl max x ∈ xs := by
  induction xs generalizing x with
  | nil => exact Or.inl rfl
  | cons b t ih =>
    rw [List.foldl_cons]
    rcases max_choice x b with hm | hm
    · rcases ih (max x b) with h | h
      · exact Or.inl (by rw [h, hm])
      · exact Or.inr (List.mem_cons_of_mem _ h)
    · rcases ih (max x b) with h | h
      · exact Or.inr (by rw [h, hm]; exact List.mem_cons_self _ _)
      · exact Or.inr (List.mem_cons_of_mem _ h)

/-- Every element of a nonempty list is bounded by `amax`. -/
theorem le_amax {l : List ℚ} {w : ℚ} (h : w ∈ l) : w ≤ amax l := by
  match l with
  | x :: xs =>
    rcases List.mem_cons.1 h with rfl | h2
    · exact le_foldl_max w xs
    · exact mem_le_foldl_max x h2

/-- `amax` of a nonempty list is one of its elements. -/
theorem amax_mem {l : List ℚ} (h : l ≠ []) : amax l ∈ l := by
  match l with
  | x :: xs =>
    show xs.foldl max x ∈ x :: xs
    rcases foldl_max_mem xs x with h1 | h1
    · rw [h1]; exact List.mem_cons_self x xs
    · exact List.mem_cons_of_mem x h1

/-! ## Claim C1

The spec says that for `with_replacement=False` and count `k`, every
pre-neuron receives exactly `k` distinct post indices.  In the code the
per-pre-neuron selection loop in `__build_post_neurons` runs only under
`if post_neurons[m] is None`, but the list was just initialised with
(non-None) empty arrays, so the guard never fires: every pre-neuron's
selection stays empty, whatever the random generator does. -/

/-- C1: for every random generator, connector configuration and projection,
`__build_post_neurons` returns one empty selection per pre-neuron, and the
selection that `_post_neurons_in_slice` surfaces for any slice and
pre-neuron is empty - never the `k` distinct indices required. -/
theorem c1_build_post_neurons_selects_nothing (rng : Rng)
    (c : FixedNumberPostConnector) (info : SynapseInformation)
    (lo hi n : Nat) :
    buildPostNeurons rng c info =
      List.replicate info.n_pre_neurons (some []) ∧
    (postNeuronsInSlice rng
      (FixedNumberPostConnector.make c.n_post c.allow_self_connections
        c.with_replacement) info lo hi n).1 = [] := by
  have hbuild : ∀ (c' : FixedNumberPostConnector),
      buildPostNeurons rng c' info =
        List.replicate info.n_pre_neurons (some []) := by
    intro c'
    unfold buildPostNeurons
    refine foldl_fixed _ _ _ ?_
    intro m hm
    have hlt : m < info.n_pre_neurons := List.mem_range.1 hm
    have hget : (List.replicate info.n_pre_neurons
        (some ([] : List Nat)))[m]? = some (some []) := by
      simp [List.getElem?_replicate, hlt]
    simp [List.getD, hget]
  refine ⟨hbuild c, ?_⟩
  simp only [postNeuronsInSlice, getPostNeurons,
    FixedNumberPostConnector.make, hbuild]
  by_cases hn : n < info.n_pre_neurons <;>
    simp [List.getD, List.getElem?_replicate, hn]

/-! ## Claim C3

`set_projection_information` raises when `n > n_post_neurons` (without
replacement), and in the no-self-connection same-population case when
`n = n_post_neurons` - i.e. when `n` is one more than the eligible pool of
`n_post_neurons - 1` partners.  The claim instead places the second raise
at `n = n_post_neurons - 1` (the full eligible pool), which the code
accepts: drawing the entire pool without replacement is possible. -/

/-- C3 counterexample: `with_replacement=False`,
`allow_self_connections=False`, a self-projection with 5 post-neurons and
`n = 4 = population - 1`.  The claim demands an exception; the code returns
normally. -/
theorem c3_counterexample_full_pool_accepted :
    c3ClaimRaises
      { n_post := 4, allow_self_connections := false,
        with_replacement := false, post_neurons := [],
        post_neurons_set := false }
      { n_pre_neurons := 5, n_post_neurons := 5, pre_is_post := true } =
      true ∧
    setProjectionInformation
      { n_post := 4, allow_self_connections := false,
        with_replacement := false, post_neurons := [],
        post_neurons_set := false }
      { n_pre_neurons := 5, n_post_neurons := 5, pre_is_post := true } =
      Except.ok () := ⟨rfl, rfl⟩

/-- C3 (amended): with `with_replacement=False`,
`set_projection_information` raises exactly when `n` exceeds the number of
post-neurons, or when additionally self-connections are disallowed, the
projection is a self-projection, and `n` equals the number of post-neurons
(one more than the eligible pool); in every other configuration it returns
normally. -/
theorem c3_set_projection_information_ok_iff
    (c : FixedNumberPostConnector) (info : SynapseInformation) :
    setProjectionInformation c info = Except.ok () ↔
      ¬((c.with_replacement = false ∧
          c.n_post > info.n_post_neurons) ∨
        (c.with_replacement = false ∧ c.allow_self_connections = false ∧
          c.n_post = info.n_post_neurons ∧ info.pre_is_post = true)) := by
  cases hwr : c.with_replacement <;>
    cases hasc : c.allow_self_connections <;>
    cases hpp : info.pre_is_post <;>
    by_cases h1 : c.n_post > info.n_post_neurons <;>
    by_cases h2 : c.n_post = info.n_post_neurons <;>
    simp [setProjectionInformation, hwr, hasc, hpp, h1, h2]

/-! ## Claim C10 -/

/-- C10: after the first `_get_post_neurons` call the selection is frozen:
the cache flag is set; a second call with any generator and any
`synapse_info` returns the identical cached list and the identical state
(no re-draw); `_post_neurons_in_slice` and `_n_post_neurons_in_slice` on
the resulting connector no longer depend on generator or `synapse_info`;
and the `allow_self_connections` setter - the one mutator on the class -
leaves both cache fields untouched. -/
theorem c10_post_neurons_cache_frozen (rng₁ rng₂ : Rng)
    (c : FixedNumberPostConnector) (info₁ info₂ : SynapseInformation)
    (b : Bool) (lo hi n : Nat) :
    (getPostNeurons rng₁ c info₁).2.post_neurons_set = true ∧
    getPostNeurons rng₂ (getPostNeurons rng₁ c info₁).2 info₂ =
      ((getPostNeurons rng₁ c info₁).1, (getPostNeurons rng₁ c info₁).2) ∧
    postNeuronsInSlice rng₂ (getPostNeurons rng₁ c info₁).2 info₂ lo hi n =
      postNeuronsInSlice rng₁ (getPostNeurons rng₁ c info₁).2 info₁
        lo hi n ∧
    nPostNeuronsInSlice rng₂ (getPostNeurons rng₁ c info₁).2 info₂ lo hi n =
      nPostNeuronsInSlice rng₁ (getPostNeurons rng₁ c info₁).2 info₁
        lo hi n ∧
    (setAllowSelfConnections c b).post_neurons = c.post_neurons ∧
    (setAllowSelfConnections c b).post_neurons_set = c.post_neurons_set := by
  by_cases h : c.post_neurons_set <;>
    simp [getPostNeurons, postNeuronsInSlice, nPostNeuronsInSlice,
      setAllowSelfConnections, h]

/-! ## Claim C2 -/

/-- C2: `get_post_shape` equals the claim's formula
`clamp(floor((pre - (kernel-1) + 2*padding) / stride), min=1)` per
dimension (with the pool-stride pre-division when pooling is configured),
and the two quoted examples: 5x5 kernel, stride 1, padding 2 on a 10x10
image gives 10x10; 3x3 kernel, stride 2, no padding on 8x8 gives 3x3. -/
theorem c2_get_post_shape_formula (c : ConvolutionConnector)
    (shape : Int × Int) :
    c.getPostShape shape = c2ClaimPostShape c shape ∧
    (ConvolutionConnector.make
        (List.replicate 5 (List.replicate 5 (1 : ℚ))) (1, 1) (2, 2)
        none none "excitatory" "inhibitory" true).getPostShape (10, 10) =
      (10, 10) ∧
    (ConvolutionConnector.make
        (List.replicate 3 (List.replicate 3 (1 : ℚ))) (2, 2) (0, 0)
        none none "excitatory" "inhibitory" true).getPostShape (8, 8) =
      (3, 3) := by
  refine ⟨?_, by decide, by decide⟩
  simp [ConvolutionConnector.getPostShape, c2ClaimPostShape]

/-! ## Claim C6 -/

/-- C6: `validate_connection` (a pure check in this model - the connector
is not written to) returns normally exactly when both populations are 2D,
the declared post shape equals `get_post_shape` of the pre shape, and the
post population has synapse ids for both receptor types; in every other
case it raises a configuration error. -/
theorem c6_validate_connection_ok_iff (c : ConvolutionConnector)
    (pre post : PopulationVertex) :
    c.validateConnection pre post = Except.ok () ↔
      (pre.atoms_shape.length = 2 ∧ post.atoms_shape.length = 2 ∧
        (post.atoms_shape.getD 0 0, post.atoms_shape.getD 1 0) =
          c.getPostShape
            (pre.atoms_shape.getD 0 0, pre.atoms_shape.getD 1 0) ∧
        (post.synapse_id_by_target c.positive_receptor_type).isSome =
          true ∧
        (post.synapse_id_by_target c.negative_receptor_type).isSome =
          true) := by
  unfold ConvolutionConnector.validateConnection
  split_ifs with h1 h2 h3 h4
  all_goals simp_all [Option.isNone_iff_eq_none, Option.isSome_iff_ne_none]
  all_goals tauto

/-! ## Claim C5 -/

/-- C5: the declared device-parameter sizes match the data actually
produced: `parameters_n_bytes` is the 36-byte `CONNECTOR_CONFIG_SIZE` and
equals 4 bytes per word of `get_local_only_data` (5 words of packed shorts
plus 4 division constants), and `kernel_n_bytes` equals 2 bytes per int16
entry of `get_encoded_kernel_weights`. -/
theorem c5_device_parameter_sizes_match (c : ConvolutionConnector)
    (div_const : Int → Nat) (pos neg ds ld wi : Nat) (wsp wsn : ℚ) :
    c.parametersNBytes = 36 ∧
    c.parametersNBytes =
      BYTES_PER_WORD *
        (c.getLocalOnlyData div_const pos neg ds ld wi).length ∧
    c.kernelNBytes =
      BYTES_PER_SHORT * (c.getEncodedKernelWeights wsp wsn).length := by
  refine ⟨rfl, ?_, ?_⟩
  · simp [ConvolutionConnector.getLocalOnlyData, viewU16AsU32,
      ConvolutionConnector.parametersNBytes, CONNECTOR_CONFIG_SIZE,
      BYTES_PER_WORD, BYTES_PER_SHORT]
  · simp [ConvolutionConnector.getEncodedKernelWeights,
      ConvolutionConnector.kernelNBytes,
      ConvolutionConnector.kernelNWeights, BYTES_PER_SHORT,
      Function.comp_def, Nat.mul_comm]

/-! ## Claim C8

`get_weight_maximum` is `numpy.amax(kernel)` - the maximum signed value,
not the maximum absolute value the claim (and the spec's
`weight_bound -> max_abs_weight` contract) asserts.  On a kernel whose
weights are all negative the two differ. -/

/-- An all-negative 1x1 kernel used to refute C8 as stated. -/
def c8ExampleConnector : ConvolutionConnector :=
  ConvolutionConnector.make [[-2]] (1, 1) (0, 0) none none
    "excitatory" "inhibitory" true

/-- C8 counterexample: on the kernel `[[-2]]`, `get_weight_maximum` returns
`-2`, not the maximum absolute value `2`. -/
theorem c8_counterexample_all_negative_kernel :
    c8ExampleConnector.getWeightMaximum = -2 ∧
    c8ClaimMaxAbsWeight c8ExampleConnector = 2 ∧
    c8ExampleConnector.getWeightMaximum ≠
      c8ClaimMaxAbsWeight c8ExampleConnector := by
  refine ⟨rfl, ?_, by decide⟩
  show |(-2 : ℚ)| = 2
  decide

/-- C8 (amended): `get_weight_maximum` returns the maximum signed value
over all kernel weights (an attained upper bound of the weights
themselves, not of their absolute values). -/
theorem c8_get_weight_maximum_is_signed_max (c : ConvolutionConnector)
    (w : ℚ) (hw : w ∈ c.kernel_weights.flatten) :
    w ≤ c.getWeightMaximum ∧
    c.getWeightMaximum ∈ c.kernel_weights.flatten := by
  refine ⟨le_amax hw, amax_mem ?_⟩
  intro hnil
  rw [hnil] at hw
  exact List.not_mem_nil w hw

/-- C8 witness: the amended statement evaluated on the `[[-2]]` kernel. -/
theorem c8_get_weight_maximum_witness :
    (-2 : ℚ) ∈ c8ExampleConnector.kernel_weights.flatten ∧
    ((-2 : ℚ) ≤ c8ExampleConnector.getWeightMaximum ∧
      c8ExampleConnector.getWeightMaximum ∈
        c8ExampleConnector.kernel_weights.flatten) :=
  ⟨by decide, c8_get_weight_maximum_is_signed_max c8ExampleConnector (-2)
    (by decide)⟩

/-! ## Claim C7 -/

/-- Floor division by a positive divisor is monotone. -/
theorem fdiv_mono {a b d : Int} (hd : 0 < d) (h : a ≤ b) :
    a.fdiv d ≤ b.fdiv d := by
  rw [Int.fdiv_eq_ediv _ (le_of_lt hd), Int.fdiv_eq_ediv _ (le_of_lt hd)]
  exact Int.ediv_le_ediv hd h

/-- `__pre_as_post` is monotone in each coordinate (positive strides and
pool strides). -/
theorem preAsPost_mono (c : ConvolutionConnector)
    (hsx : 0 < c.strides.1) (hsy : 0 < c.strides.2)
    (hps : ∀ ps, c.pool_stride = some ps → 0 < ps.1 ∧ 0 < ps.2)
    {p q : Int × Int} (h1 : p.1 ≤ q.1) (h2 : p.2 ≤ q.2) :
    (c.preAsPost p).1 ≤ (c.preAsPost q).1 ∧
      (c.preAsPost p).2 ≤ (c.preAsPost q).2 := by
  cases hp : c.pool_stride with
  | none =>
    simp only [ConvolutionConnector.preAsPost, hp]
    exact ⟨fdiv_mono hsx (by omega), fdiv_mono hsy (by omega)⟩
  | some ps =>
    obtain ⟨hps1, hps2⟩ := hps ps hp
    simp only [ConvolutionConnector.preAsPost, hp]
    refine ⟨fdiv_mono hsx ?_, fdiv_mono hsy ?_⟩
    · have := fdiv_mono hps1 h1
      omega
    · have := fdiv_mono hps2 h2
      omega

/-- Two nonempty integer intervals intersect iff each one's left end is at
most the other's right end. -/
theorem interval_intersect_iff {a b p q : Int} (hab : a ≤ b) (hpq : p ≤ q) :
    (∃ t : Int, a ≤ t ∧ t ≤ b ∧ p ≤ t ∧ t ≤ q) ↔ (a ≤ q ∧ p ≤ b) := by
  constructor
  · rintro ⟨t, h1, h2, h3, h4⟩
    omega
  · rintro ⟨h1, h2⟩
    exact ⟨max a p, le_max_left a p, max_le hab h2, le_max_right a p,
      max_le h1 hpq⟩

/-- C7: with edge filtering enabled, `get_connected_vertices` retains a pre
machine vertex for a given post vertex exactly when the pre vertex's
coordinate range, corner-mapped into post coordinates by `__pre_as_post`,
intersects the post slice widened by half the kernel extent per dimension
(`kernel_shape[0] // 2` on x, `kernel_shape[1] // 2` on y - distinct values
for a non-square kernel). -/
theorem c7_connected_vertices_receptive_field (c : ConvolutionConnector)
    (pre_slices : List GridSlice) (pre post : GridSlice)
    (hfe : c.filter_edges = true)
    (hsx : 0 < c.strides.1) (hsy : 0 < c.strides.2)
    (hps : ∀ ps, c.pool_stride = some ps → 0 < ps.1 ∧ 0 < ps.2)
    (hpx : pre.x_start ≤ pre.x_stop - 1)
    (hpy : pre.y_start ≤ pre.y_stop - 1)
    (hqx : post.x_start ≤ post.x_stop - 1)
    (hqy : post.y_start ≤ post.y_stop - 1) :
    pre ∈ c.connectedPreVertices pre_slices post ↔
      pre ∈ pre_slices ∧
        ∃ px py : Int,
          ((c.preAsPost (pre.x_start, pre.y_start)).1 ≤ px ∧
            px ≤ (c.preAsPost (pre.x_stop - 1, pre.y_stop - 1)).1 ∧
            (c.preAsPost (pre.x_start, pre.y_start)).2 ≤ py ∧
            py ≤ (c.preAsPost (pre.x_stop - 1, pre.y_stop - 1)).2) ∧
          (post.x_start - (c.kernelShape.1 / 2 : Nat) ≤ px ∧
            px ≤ post.x_stop + (c.kernelShape.1 / 2 : Nat) - 1 ∧
            post.y_start - (c.kernelShape.2 / 2 : Nat) ≤ py ∧
            py ≤ post.y_stop + (c.kernelShape.2 / 2 : Nat) - 1) := by
  have hmono := preAsPost_mono c hsx hsy hps
    (p := (pre.x_start, pre.y_start))
    (q := (pre.x_stop - 1, pre.y_stop - 1)) hpx hpy
  unfold ConvolutionConnector.connectedPreVertices
  rw [if_pos hfe, List.mem_filter]
  have hrange : c.preInRange pre post = true ↔
      ((c.preAsPost (pre.x_start, pre.y_start)).1 ≤
          post.x_stop + (c.kernelShape.1 / 2 : Nat) - 1 ∧
        (c.preAsPost (pre.x_start, pre.y_start)).2 ≤
          post.y_stop + (c.kernelShape.2 / 2 : Nat) - 1) ∧
      (post.x_start - (c.kernelShape.1 / 2 : Nat) ≤
          (c.preAsPost (pre.x_stop - 1, pre.y_stop - 1)).1 ∧
        post.y_start - (c.kernelShape.2 / 2 : Nat) ≤
          (c.preAsPost (pre.x_stop - 1, pre.y_stop - 1)).2) := by
    simp only [ConvolutionConnector.preInRange, Bool.and_eq_true,
      Bool.not_eq_true', Bool.or_eq_false_iff, decide_eq_false_iff_not,
      not_lt]
  constructor
  · rintro ⟨hmem, hr⟩
    obtain ⟨⟨h1, h2⟩, h3, h4⟩ := hrange.1 hr
    refine ⟨hmem, ?_⟩
    obtain ⟨px, hx1, hx2, hx3, hx4⟩ :=
      (interval_intersect_iff hmono.1 (by omega)).2 ⟨h1, h3⟩
    obtain ⟨py, hy1, hy2, hy3, hy4⟩ :=
      (interval_intersect_iff hmono.2 (by omega)).2 ⟨h2, h4⟩
    exact ⟨px, py, ⟨hx1, hx2, hy1, hy2⟩, ⟨hx3, hx4, hy3, hy4⟩⟩
  · rintro ⟨hmem, px, py, ⟨hx1, hx2, hy1, hy2⟩, ⟨hx3, hx4, hy3, hy4⟩⟩
    exact ⟨hmem, hrange.2 ⟨⟨by omega, by omega⟩, by omega, by omega⟩⟩

/-- A 3x5 (non-square) kernel connector with unit strides, used to witness
C7. -/
def c7ExampleConnector : ConvolutionConnector :=
  ConvolutionConnector.make (List.replicate 3 (List.replicate 5 (1 : ℚ)))
    (1, 1) (0, 0) none none "excitatory" "inhibitory" true

/-- C7 witness: the receptive-field characterisation evaluated on a
concrete non-square-kernel configuration. -/
theorem c7_connected_vertices_witness :
    (c7ExampleConnector.filter_edges = true ∧
      0 < c7ExampleConnector.strides.1 ∧
      0 < c7ExampleConnector.strides.2 ∧
      (∀ ps, c7ExampleConnector.pool_stride = some ps →
        0 < ps.1 ∧ 0 < ps.2) ∧
      ((⟨0, 4, 0, 4⟩ : GridSlice).x_start ≤
        (⟨0, 4, 0, 4⟩ : GridSlice).x_stop - 1)) ∧
    ((⟨0, 4, 0, 4⟩ : GridSlice) ∈
        c7ExampleConnector.connectedPreVertices [⟨0, 4, 0, 4⟩]
          ⟨0, 4, 0, 4⟩ ↔
      (⟨0, 4, 0, 4⟩ : GridSlice) ∈ [(⟨0, 4, 0, 4⟩ : GridSlice)] ∧
        ∃ px py : Int,
          ((c7ExampleConnector.preAsPost (0, 0)).1 ≤ px ∧
            px ≤ (c7ExampleConnector.preAsPost (4 - 1, 4 - 1)).1 ∧
            (c7ExampleConnector.preAsPost (0, 0)).2 ≤ py ∧
            py ≤ (c7ExampleConnector.preAsPost (4 - 1, 4 - 1)).2) ∧
          ((0 : Int) - (c7ExampleConnector.kernelShape.1 / 2 : Nat) ≤ px ∧
            px ≤ 4 + (c7ExampleConnector.kernelShape.1 / 2 : Nat) - 1 ∧
            (0 : Int) - (c7ExampleConnector.kernelShape.2 / 2 : Nat) ≤ py ∧
            py ≤ 4 + (c7ExampleConnector.kernelShape.2 / 2 : Nat) - 1)) :=
  ⟨⟨rfl, by decide, by decide,
      fun ps h => absurd h (by simp [c7ExampleConnector,
        ConvolutionConnector.make]), by decide⟩,
    c7_connected_vertices_receptive_field c7ExampleConnector
      [⟨0, 4, 0, 4⟩] ⟨0, 4, 0, 4⟩ ⟨0, 4, 0, 4⟩ rfl (by decide) (by decide)
      (fun ps h => absurd h (by simp [c7ExampleConnector,
        ConvolutionConnector.make]))
      (by decide) (by decide) (by decide) (by decide)⟩

/-! ## Bit-field helper lemmas (for C4 and C9) -/

/-- Bits at or above the width of a bounded value are clear. -/
theorem testBit_false_of_lt {v w j : Nat} (hv : v < 2 ^ w) (hj : w ≤ j) :
    v.testBit j = false :=
  Nat.testBit_lt_two_pow
    (lt_of_lt_of_le hv (Nat.pow_le_pow_right (by norm_num) hj))

/-- A `w`-bit value shifted to `s` has no bits in common with a `w'`-wide
mask at `s'` lying entirely above it. -/
theorem shift_disjoint_low {v w s w' s' : Nat} (hv : v < 2 ^ w)
    (h : s + w ≤ s') : (v <<< s) &&& ((2 ^ w' - 1) <<< s') = 0 := by
  apply Nat.eq_of_testBit_eq
  intro i
  simp only [Nat.testBit_and, Nat.testBit_shiftLeft,
    Nat.testBit_two_pow_sub_one, Nat.zero_testBit, ge_iff_le]
  by_cases hs' : s' ≤ i
  · have hb : v.testBit (i - s) = false := testBit_false_of_lt hv (by omega)
    simp [hb]
  · simp [hs']

/-- A value shifted to `s` has no bits in common with a `w'`-wide mask at
`s'` lying entirely below it. -/
theorem shift_disjoint_high (v : Nat) {s w' s' : Nat}
    (h : s' + w' ≤ s) : (v <<< s) &&& ((2 ^ w' - 1) <<< s') = 0 := by
  apply Nat.eq_of_testBit_eq
  intro i
  simp only [Nat.testBit_and, Nat.testBit_shiftLeft,
    Nat.testBit_two_pow_sub_one, Nat.zero_testBit, ge_iff_le]
  by_cases hs : s ≤ i
  · have hw' : ¬(i - s' < w') := by omega
    simp [hw']
  · simp [hs]

/-- A `w`-bit value shifted to `s` is absorbed by the `w`-wide all-ones
mask at the same shift. -/
theorem shift_mask_absorb {v w s : Nat} (hv : v < 2 ^ w) :
    (v <<< s) &&& ((2 ^ w - 1) <<< s) = v <<< s := by
  apply Nat.eq_of_testBit_eq
  intro i
  simp only [Nat.testBit_and, Nat.testBit_shiftLeft,
    Nat.testBit_two_pow_sub_one, ge_iff_le]
  by_cases hs : s ≤ i
  · by_cases hb : v.testBit (i - s) = true
    · have hiw : i - s < w := by
        by_contra hge
        rw [testBit_false_of_lt hv (by omega)] at hb
        exact Bool.false_ne_true hb
      simp [hs, hb, hiw]
    · rw [Bool.not_eq_true] at hb
      simp [hb]
  · simp [hs]

/-- Shifting left then right by the same amount is the identity. -/
theorem shiftLeft_shiftRight_self (v s : Nat) : (v <<< s) >>> s = v := by
  rw [Nat.shiftLeft_eq, Nat.shiftRight_eq_div_pow]
  exact Nat.mul_div_cancel v (Nat.two_pow_pos s)

/-- A single-bit mask `2^s` is the width-1 all-ones mask shifted to `s`. -/
theorem two_pow_eq_one_mask_shift (s : Nat) :
    (2 : Nat) ^ s = (2 ^ 1 - 1) <<< s := by
  rw [Nat.shiftLeft_eq]
  norm_num

/-- Extract the first field of a three-field OR under a mask that keeps
only that field. -/
theorem or3_extract_fst {A B C M : Nat} (v s : Nat)
    (hA : A &&& M = v <<< s) (hB : B &&& M = 0) (hC : C &&& M = 0) :
    ((A ||| B ||| C) &&& M) >>> s = v := by
  rw [Nat.and_distrib_right, Nat.and_distrib_right, hA, hB, hC,
    Nat.or_zero, Nat.or_zero, shiftLeft_shiftRight_self]

/-- Extract the middle field of a three-field OR under a mask that keeps
only that field. -/
theorem or3_extract_snd {A B C M : Nat} (v s : Nat)
    (hA : A &&& M = 0) (hB : B &&& M = v <<< s) (hC : C &&& M = 0) :
    ((A ||| B ||| C) &&& M) >>> s = v := by
  rw [Nat.and_distrib_right, Nat.and_distrib_right, hA, hB, hC,
    Nat.zero_or, Nat.or_zero, shiftLeft_shiftRight_self]

/-- Extract the last field of a three-field OR under a mask that keeps
only that field. -/
theorem or3_extract_thd {A B C M : Nat} (v s : Nat)
    (hA : A &&& M = 0) (hB : B &&& M = 0) (hC : C &&& M = v <<< s) :
    ((A ||| B ||| C) &&& M) >>> s = v := by
  rw [Nat.and_distrib_right, Nat.and_distrib_right, hA, hB, hC,
    Nat.or_zero, Nat.zero_or, shiftLeft_shiftRight_self]

/-! ## Claim C4 -/

/-- C4: for every `SourceOrder` variant and every in-range
`(x, y, polarity)` triple, decoding the OR-composed key with the variant's
own shifts and masks recovers exactly the original triple - the three
field bit ranges never overlap. -/
theorem c4_source_order_key_roundtrip (so : SourceOrder)
    (x_bits y_bits x y p : Nat) (hx : x < 2 ^ x_bits) (hy : y < 2 ^ y_bits)
    (hp : p < 2) :
    so.decode x_bits y_bits (so.encode x_bits y_bits x y p) = (x, y, p) := by
  have hp1 : p < 2 ^ 1 := hp
  cases so <;>
    simp only [SourceOrder.encode, SourceOrder.decode, SourceOrder.pMask,
      SourceOrder.xMask, SourceOrder.yMask, SourceOrder.pShift,
      SourceOrder.xShift, SourceOrder.yShift, Nat.one_shiftLeft,
      Prod.mk.injEq] <;>
    refine ⟨?_, ?_, ?_⟩
  -- PXY: p at x_bits+y_bits, x at y_bits, y at 0
  · refine or3_extract_snd x _ (shift_disjoint_high p ?_)
      (shift_mask_absorb hx) (shift_disjoint_low hy ?_) <;> omega
  · refine or3_extract_thd y _ (shift_disjoint_high p ?_)
      (shift_disjoint_high x ?_) (shift_mask_absorb hy) <;> omega
  · rw [two_pow_eq_one_mask_shift]
    refine or3_extract_fst p _ (shift_mask_absorb hp1)
      (shift_disjoint_low hx ?_) (shift_disjoint_low hy ?_) <;> omega
  -- XPY: p at y_bits, x at y_bits+1, y at 0
  · refine or3_extract_snd x _ (shift_disjoint_low hp1 ?_)
      (shift_mask_absorb hx) (shift_disjoint_low hy ?_) <;> omega
  · refine or3_extract_thd y _ (shift_disjoint_high p ?_)
      (shift_disjoint_high x ?_) (shift_mask_absorb hy) <;> omega
  · rw [two_pow_eq_one_mask_shift]
    refine or3_extract_fst p _ (shift_mask_absorb hp1)
      (shift_disjoint_high x ?_) (shift_disjoint_low hy ?_) <;> omega
  -- XYP: p at 0, x at y_bits+1, y at 1
  · refine or3_extract_snd x _ (shift_disjoint_low hp1 ?_)
      (shift_mask_absorb hx) (shift_disjoint_low hy ?_) <;> omega
  · refine or3_extract_thd y _ (shift_disjoint_low hp1 ?_)
      (shift_disjoint_high x ?_) (shift_mask_absorb hy) <;> omega
  · rw [two_pow_eq_one_mask_shift]
    refine or3_extract_fst p _ (shift_mask_absorb hp1)
      (shift_disjoint_high x ?_) (shift_disjoint_high y ?_) <;> omega
  -- PYX: p at x_bits+y_bits, x at 0, y at x_bits
  · refine or3_extract_snd x _ (shift_disjoint_high p ?_)
      (shift_mask_absorb hx) (shift_disjoint_high y ?_) <;> omega
  · refine or3_extract_thd y _ (shift_disjoint_high p ?_)
      (shift_disjoint_low hx ?_) (shift_mask_absorb hy) <;> omega
  · rw [two_pow_eq_one_mask_shift]
    refine or3_extract_fst p _ (shift_mask_absorb hp1)
      (shift_disjoint_low hx ?_) (shift_disjoint_low hy ?_) <;> omega
  -- YPX: p at x_bits, x at 0, y at x_bits+1
  · refine or3_extract_snd x _ (shift_disjoint_high p ?_)
      (shift_mask_absorb hx) (shift_disjoint_high y ?_) <;> omega
  · refine or3_extract_thd y _ (shift_disjoint_low hp1 ?_)
      (shift_disjoint_low hx ?_) (shift_mask_absorb hy) <;> omega
  · rw [two_pow_eq_one_mask_shift]
    refine or3_extract_fst p _ (shift_mask_absorb hp1)
      (shift_disjoint_low hx ?_) (shift_disjoint_high y ?_) <;> omega
  -- YXP: p at 0, x at 1, y at x_bits+1
  · refine or3_extract_snd x _ (shift_disjoint_low hp1 ?_)
      (shift_mask_absorb hx) (shift_disjoint_high y ?_) <;> omega
  · refine or3_extract_thd y _ (shift_disjoint_low hp1 ?_)
      (shift_disjoint_low hx ?_) (shift_mask_absorb hy) <;> omega
  · rw [two_pow_eq_one_mask_shift]
    refine or3_extract_fst p _ (shift_mask_absorb hp1)
      (shift_disjoint_high x ?_) (shift_disjoint_high y ?_) <;> omega

/-- C4 witness: the round-trip evaluated for one variant and one concrete
in-range triple. -/
theorem c4_source_order_key_roundtrip_witness :
    ((5 : Nat) < 2 ^ 3 ∧ (1 : Nat) < 2 ^ 2 ∧ (1 : Nat) < 2) ∧
    SourceOrder.XPY.decode 3 2 (SourceOrder.XPY.encode 3 2 5 1 1) =
      (5, 1, 1) :=
  ⟨by decide, c4_source_order_key_roundtrip SourceOrder.XPY 3 2 5 1 1
    (by decide) (by decide) (by decide)⟩

/-! ## Packed-digit helper lemmas (for C9) -/

/-- AND distributes over base-`2^s` digit decompositions. -/
theorem packAnd {a a' : Nat} (b b' : Nat) {s : Nat} (ha : a < 2 ^ s)
    (ha' : a' < 2 ^ s) :
    (a + 2 ^ s * b) &&& (a' + 2 ^ s * b') =
      (a &&& a') + 2 ^ s * (b &&& b') := by
  have h1 : a + 2 ^ s * b = 2 ^ s * b ||| a := by
    rw [Nat.add_comm]
    exact Nat.mul_add_lt_is_or ha b
  have h2 : a' + 2 ^ s * b' = 2 ^ s * b' ||| a' := by
    rw [Nat.add_comm]
    exact Nat.mul_add_lt_is_or ha' b'
  have h3 : (a &&& a') + 2 ^ s * (b &&& b') =
      2 ^ s * (b &&& b') ||| (a &&& a') := by
    rw [Nat.add_comm]
    exact Nat.mul_add_lt_is_or (Nat.and_lt_two_pow a ha') _
  rw [h1, h2, h3]
  apply Nat.eq_of_testBit_eq
  intro i
  simp only [Nat.testBit_and, Nat.testBit_or, Nat.testBit_mul_pow_two,
    ge_iff_le]
  by_cases hi : s ≤ i
  · have ta : a.testBit i = false := testBit_false_of_lt ha hi
    have ta' : a'.testBit i = false := testBit_false_of_lt ha' hi
    simp [hi, ta, ta']
  · simp [hi]

/-- A value shifted past the width of `m` shares no bits with `m`. -/
theorem shift_and_small (v : Nat) {m s : Nat} (hm : m < 2 ^ s) :
    (v <<< s) &&& m = 0 := by
  apply Nat.eq_of_testBit_eq
  intro i
  simp only [Nat.testBit_and, Nat.testBit_shiftLeft, Nat.zero_testBit,
    ge_iff_le]
  by_cases hi : s ≤ i
  · simp [testBit_false_of_lt hm hi]
  · simp [hi]

/-- A `w`-bit value shifted by `s` fits in `s + w` bits. -/
theorem shiftLeft_lt_pow {v w : Nat} (s : Nat) (hv : v < 2 ^ w) :
    v <<< s < 2 ^ (s + w) := by
  rw [Nat.shiftLeft_eq, pow_add, Nat.mul_comm (2 ^ s) (2 ^ w)]
  exact Nat.mul_lt_mul_of_pos_right hv (Nat.two_pow_pos s)

/-- `get_n_bits n` yields enough bits to hold `n` values. -/
theorem get_n_bits_le (n : Nat) : n ≤ 2 ^ get_n_bits n := by
  unfold get_n_bits
  by_cases h0 : n = 0
  · simp [h0]
  by_cases h1 : n = 1
  · simp [h0, h1]
  simp only [h0, h1, if_false]
  cases hr : (List.range (n + 1)).find? (fun k => decide (n ≤ 2 ^ k)) with
  | none =>
    exfalso
    have hall := List.find?_eq_none.1 hr n (List.mem_range.2 (by omega))
    simp only [decide_eq_true_eq] at hall
    exact hall (Nat.le_of_lt (Nat.lt_two_pow n))
  | some k =>
    have hk := List.find?_some hr
    simp only [decide_eq_true_eq] at hk
    simpa using hk

/-! ## Claim C9

The claim's hypotheses (construction passes: sub-square sides are powers of
two with `sub_width >= X_MASK`, `sub_height >= Y_MASK`) do not make the
fields disjoint: `Y_MASK = 1` admits `sub_height = 1`, where the sub-square
y-index field lands on the FPGA y bit, the `+`-composed mask carries into
the wrong bits, and a legitimate key is no longer contained in the mask.
With the gaps actually required - the x-index field starting at or above
bit 2 (`sub_x_bits + 2 <= x_bits`), the y-index field starting above the
FPGA y bit (`sub_y_bits + 1 <= y_bits`), and the base key fitting in the
remaining key bits - the fields are pairwise disjoint and every key is
contained in the mask. -/

/-- C9 counterexample: `base_key=1, width=4, height=2, sub_width=4,
sub_height=1` passes construction (powers of two, `>= X_MASK`/`Y_MASK`),
yet the key built for FPGA link 15, machine vertex index 1 (a valid index:
there are 2 sub-squares) is not preserved by the mask. -/
theorem c9_counterexample_sub_height_one :
    SPIFRetinaDevice.constructionOK ⟨1, 4, 2, 4, 1⟩ = true ∧
    (1 : Nat) < SPIFRetinaDevice.n_squares_per_row ⟨1, 4, 2, 4, 1⟩ *
      SPIFRetinaDevice.n_squares_per_col ⟨1, 4, 2, 4, 1⟩ ∧
    SPIFRetinaDevice.outgoingKey ⟨1, 4, 2, 4, 1⟩ 15 1 &&&
        SPIFRetinaDevice.fpga_mask ⟨1, 4, 2, 4, 1⟩ ≠
      SPIFRetinaDevice.outgoingKey ⟨1, 4, 2, 4, 1⟩ 15 1 := by
  refine ⟨by decide, by decide, by decide⟩

/-- C9 (amended): for a `SPIFRetinaDevice` that passes construction and
additionally satisfies `sub_x_bits + 2 <= x_bits`,
`sub_y_bits + 1 <= y_bits` and `base_key < 2 ^ n_key_bits`, the five bit
fields of the mask (base key, sub-square y index, FPGA y bit, sub-square x
index, FPGA x bits) occupy pairwise disjoint ranges, and the key built by
`get_outgoing_partition_constraints` for every valid FPGA link
(`link <= 15`) and machine-vertex index satisfies `key AND mask = key`. -/
theorem c9_fields_disjoint_key_in_mask (s : SPIFRetinaDevice)
    (link index : Nat)
    (hcon : s.constructionOK = true)
    (hx : s.sub_x_bits + 2 ≤ s.x_bits)
    (hy : s.sub_y_bits + 1 ≤ s.y_bits)
    (hb : s.base_key < 2 ^ s.n_key_bits)
    (hlink : link ≤ 15)
    (hidx : index < s.n_squares_per_row * s.n_squares_per_col) :
    ((s.key_mask <<< s.key_shift) &&& (s.sub_y_mask <<< s.y_index_shift) =
        0 ∧
      (s.key_mask <<< s.key_shift) &&& (Y_MASK <<< s.fpga_y_shift) = 0 ∧
      (s.key_mask <<< s.key_shift) &&& (s.sub_x_mask <<< s.x_index_shift) =
        0 ∧
      (s.key_mask <<< s.key_shift) &&& X_MASK = 0 ∧
      (s.sub_y_mask <<< s.y_index_shift) &&& (Y_MASK <<< s.fpga_y_shift) =
        0 ∧
      (s.sub_y_mask <<< s.y_index_shift) &&&
        (s.sub_x_mask <<< s.x_index_shift) = 0 ∧
      (s.sub_y_mask <<< s.y_index_shift) &&& X_MASK = 0 ∧
      (Y_MASK <<< s.fpga_y_shift) &&& (s.sub_x_mask <<< s.x_index_shift) =
        0 ∧
      (Y_MASK <<< s.fpga_y_shift) &&& X_MASK = 0 ∧
      (s.sub_x_mask <<< s.x_index_shift) &&& X_MASK = 0) ∧
    s.outgoingKey link index &&& s.fpga_mask = s.outgoingKey link index := by
  -- abbreviations for the computed layout, as plain equations for omega
  have hxis : s.x_index_shift = s.x_bits - s.sub_x_bits := rfl
  have hyis : s.y_index_shift = s.x_bits + (s.y_bits - s.sub_y_bits) := rfl
  have hks : s.key_shift = s.y_bits + s.x_bits + 1 := rfl
  have hfys : s.fpga_y_shift = s.x_bits := rfl
  -- bounds on the mask pieces
  have hkmb : s.key_mask < 2 ^ s.n_key_bits := by
    have := Nat.two_pow_pos s.n_key_bits
    simp only [SPIFRetinaDevice.key_mask, Nat.one_shiftLeft]
    omega
  have hsymb : s.sub_y_mask < 2 ^ s.sub_y_bits := by
    have := Nat.two_pow_pos s.sub_y_bits
    simp only [SPIFRetinaDevice.sub_y_mask, Nat.one_shiftLeft]
    omega
  have hsxmb : s.sub_x_mask < 2 ^ s.sub_x_bits := by
    have := Nat.two_pow_pos s.sub_x_bits
    simp only [SPIFRetinaDevice.sub_x_mask, Nat.one_shiftLeft]
    omega
  have hymb : Y_MASK < 2 ^ 1 := by decide
  have hxmb : X_MASK < 2 ^ 2 := by decide
  have pow_le : ∀ {m n : Nat}, m ≤ n → (2 : Nat) ^ m ≤ 2 ^ n :=
    fun h => Nat.pow_le_pow_right (by norm_num) h
  constructor
  · -- pairwise disjointness of the five fields
    refine ⟨?_, ?_, ?_, ?_, ?_, ?_, ?_, ?_, ?_, ?_⟩
    · exact shift_and_small _ (lt_of_lt_of_le
        (shiftLeft_lt_pow s.y_index_shift hsymb) (pow_le (by omega)))
    · exact shift_and_small _ (lt_of_lt_of_le
        (shiftLeft_lt_pow s.fpga_y_shift hymb) (pow_le (by omega)))
    · exact shift_and_small _ (lt_of_lt_of_le
        (shiftLeft_lt_pow s.x_index_shift hsxmb) (pow_le (by omega)))
    · exact shift_and_small _ (lt_of_lt_of_le hxmb (pow_le (by omega)))
    · exact shift_and_small _ (lt_of_lt_of_le
        (shiftLeft_lt_pow s.fpga_y_shift hymb) (pow_le (by omega)))
    · exact shift_and_small _ (lt_of_lt_of_le
        (shiftLeft_lt_pow s.x_index_shift hsxmb) (pow_le (by omega)))
    · exact shift_and_small _ (lt_of_lt_of_le hxmb (pow_le (by omega)))
    · exact shift_and_small _ (lt_of_lt_of_le
        (shiftLeft_lt_pow s.x_index_shift hsxmb) (pow_le (by omega)))
    · exact shift_and_small _ (lt_of_lt_of_le hxmb (pow_le (by omega)))
    · exact shift_and_small _ (lt_of_lt_of_le hxmb (pow_le (by omega)))
  -- key is contained in the mask
  · -- construction facts
    have hcon' := hcon
    simp only [SPIFRetinaDevice.constructionOK, isPowerOf2, X_MASK, Y_MASK,
      Bool.and_eq_true, Bool.not_eq_true', Bool.or_eq_false_iff,
      decide_eq_false_iff_not, decide_eq_true_eq, not_lt] at hcon'
    obtain ⟨⟨⟨hsw3, _⟩, hswp, _⟩, hshp, _⟩ := hcon'
    -- the retina is at least 2 wide (x_bits >= 2)
    have hw1 : 1 ≤ s.width := by
      by_contra hw
      have hw0 : s.width = 0 := by omega
      have : s.x_bits = 0 := by
        simp [SPIFRetinaDevice.x_bits, hw0, get_n_bits]
      omega
    have hnpr : 1 ≤ s.n_squares_per_row := by
      rw [SPIFRetinaDevice.n_squares_per_row, Nat.one_le_div_iff (by omega)]
      omega
    -- bounds on the key components
    have hfx : (SPIFRetinaDevice.subSquareBits link).1 < 4 := by
      simp only [SPIFRetinaDevice.subSquareBits, X_PER_ROW]
      omega
    have hfy : (SPIFRetinaDevice.subSquareBits link).2 < 2 := by
      simp only [SPIFRetinaDevice.subSquareBits, X_PER_ROW]
      omega
    have hxi : (s.subSquare index).1 < 2 ^ s.sub_x_bits :=
      lt_of_lt_of_le (Nat.mod_lt _ (by omega)) (get_n_bits_le _)
    have hyi2 : index / s.n_squares_per_row < s.n_squares_per_col := by
      rw [Nat.div_lt_iff_lt_mul (by omega), Nat.mul_comm]
      omega
    have hyi : (s.subSquare index).2 < 2 ^ s.sub_y_bits :=
      lt_of_lt_of_le hyi2 (get_n_bits_le _)
    -- exponent bookkeeping for the digit decomposition
    have e1 : (2 : Nat) ^ s.x_bits =
        2 ^ s.x_index_shift * 2 ^ s.sub_x_bits := by
      rw [← pow_add]
      congr 1
      omega
    have e2 : (2 : Nat) ^ s.y_index_shift =
        2 ^ s.x_index_shift * 2 ^ s.sub_x_bits *
          2 ^ (s.y_bits - s.sub_y_bits) := by
      rw [← pow_add, ← pow_add]
      congr 1
      omega
    have e3 : (2 : Nat) ^ s.key_shift =
        2 ^ s.x_index_shift * 2 ^ s.sub_x_bits *
          2 ^ (s.y_bits - s.sub_y_bits) * 2 ^ (s.sub_y_bits + 1) := by
      rw [← pow_add, ← pow_add, ← pow_add]
      congr 1
      omega
    -- key and mask written as nested base-2^shift digits
    have hkey : s.outgoingKey link index =
        (SPIFRetinaDevice.subSquareBits link).1 + 2 ^ s.x_index_shift *
          ((s.subSquare index).1 + 2 ^ s.sub_x_bits *
            ((SPIFRetinaDevice.subSquareBits link).2 + 2 ^ (s.y_bits - s.sub_y_bits) *
              ((s.subSquare index).2 + 2 ^ (s.sub_y_bits + 1) *
                s.base_key))) := by
      simp only [SPIFRetinaDevice.outgoingKey, SPIFRetinaDevice.key_bits,
        SPIFRetinaDevice.fpga_y_shift, Nat.shiftLeft_eq]
      rw [e3, e2, e1]
      ring
    have hmask : s.fpga_mask =
        3 + 2 ^ s.x_index_shift *
          (s.sub_x_mask + 2 ^ s.sub_x_bits *
            (1 + 2 ^ (s.y_bits - s.sub_y_bits) *
              (s.sub_y_mask + 2 ^ (s.sub_y_bits + 1) * s.key_mask))) := by
      simp only [SPIFRetinaDevice.fpga_mask, SPIFRetinaDevice.fpga_y_shift,
        Y_MASK, X_MASK, Nat.shiftLeft_eq]
      rw [e3, e2, e1]
      ring
    -- digit bounds
    have hfx' : (SPIFRetinaDevice.subSquareBits link).1 < 2 ^ s.x_index_shift :=
      lt_of_lt_of_le hfx (pow_le (m := 2) (by omega))
    have h3' : (3 : Nat) < 2 ^ s.x_index_shift :=
      lt_of_lt_of_le (by norm_num) (pow_le (m := 2) (by omega))
    have hfy' : (SPIFRetinaDevice.subSquareBits link).2 <
        2 ^ (s.y_bits - s.sub_y_bits) :=
      lt_of_lt_of_le hfy (pow_le (m := 1) (by omega))
    have h1' : (1 : Nat) < 2 ^ (s.y_bits - s.sub_y_bits) :=
      lt_of_lt_of_le (by norm_num) (pow_le (m := 1) (by omega))
    have hyi' : (s.subSquare index).2 < 2 ^ (s.sub_y_bits + 1) :=
      lt_of_lt_of_le hyi (pow_le (by omega))
    have hsym' : s.sub_y_mask < 2 ^ (s.sub_y_bits + 1) :=
      lt_of_lt_of_le hsymb (pow_le (by omega))
    -- AND digit by digit
    rw [hkey, hmask, packAnd _ _ hfx' h3', packAnd _ _ hxi hsxmb,
      packAnd _ _ hfy' h1', packAnd _ _ hyi' hsym']
    rw [Nat.and_pow_two_sub_one_of_lt_two_pow (n := 2) hfx,
      show s.sub_x_mask = 2 ^ s.sub_x_bits - 1 by
        simp [SPIFRetinaDevice.sub_x_mask, Nat.one_shiftLeft],
      Nat.and_pow_two_sub_one_of_lt_two_pow hxi,
      Nat.and_pow_two_sub_one_of_lt_two_pow (n := 1) hfy,
      show s.sub_y_mask = 2 ^ s.sub_y_bits - 1 by
        simp [SPIFRetinaDevice.sub_y_mask, Nat.one_shiftLeft],
      Nat.and_pow_two_sub_one_of_lt_two_pow hyi,
      show s.key_mask = 2 ^ s.n_key_bits - 1 by
        simp [SPIFRetinaDevice.key_mask, Nat.one_shiftLeft],
      Nat.and_pow_two_sub_one_of_lt_two_pow hb]

/-- C9 witness: the amended statement on a concrete well-sized retina
(`base_key=5, width=8, height=4, sub_width=4, sub_height=2`, link 3,
index 2). -/
theorem c9_fields_disjoint_key_in_mask_witness :
    (SPIFRetinaDevice.constructionOK ⟨5, 8, 4, 4, 2⟩ = true ∧
      SPIFRetinaDevice.sub_x_bits ⟨5, 8, 4, 4, 2⟩ + 2 ≤
        SPIFRetinaDevice.x_bits ⟨5, 8, 4, 4, 2⟩ ∧
      SPIFRetinaDevice.sub_y_bits ⟨5, 8, 4, 4, 2⟩ + 1 ≤
        SPIFRetinaDevice.y_bits ⟨5, 8, 4, 4, 2⟩ ∧
      (5 : Nat) < 2 ^ SPIFRetinaDevice.n_key_bits ⟨5, 8, 4, 4, 2⟩ ∧
      (3 : Nat) ≤ 15 ∧
      (2 : Nat) < SPIFRetinaDevice.n_squares_per_row ⟨5, 8, 4, 4, 2⟩ *
        SPIFRetinaDevice.n_squares_per_col ⟨5, 8, 4, 4, 2⟩) ∧
    SPIFRetinaDevice.outgoingKey ⟨5, 8, 4, 4, 2⟩ 3 2 &&&
        SPIFRetinaDevice.fpga_mask ⟨5, 8, 4, 4, 2⟩ =
      SPIFRetinaDevice.outgoingKey ⟨5, 8, 4, 4, 2⟩ 3 2 :=
  ⟨⟨by decide, by decide, by decide, by decide, by decide, by decide⟩,
    (c9_fields_disjoint_key_in_mask ⟨5, 8, 4, 4, 2⟩ 3 2 (by decide)
      (by decide) (by decide) (by decide) (by decide) (by decide)).2⟩

end SpyNNaker
